import Mathlib

set_option maxRecDepth 100000

/-!
Verification development for `scripts/01c_serp_collect.py`: the SerpApi
Google-Jobs collection pipeline (paginated fetcher, record normalizer,
merge-on-write corpus store, collection orchestrator).

Modelling conventions:
* Python machine integers are `Nat` (all quantities involved are
  non-negative); 32-bit overflow in SHA-1 is explicit `% 2^32`.
* Python strings are `String`; a field that may be absent from a JSON
  object is `Option String` (`none` = key absent).
* Python truthiness of an optional string (`None` and `""` are falsy)
  is `pyTruthy`.
* The wall clock (`datetime.utcnow()`) is an explicit parameter
  `clock : Nat → String`, consulted once per normalization event.
* The filesystem is `FS := String → Option (List NormRecord)`: a CSV
  file is modelled as the list of records it holds; the pandas
  CSV round-trip is treated as the identity on records (identifiers
  are non-empty hex strings, so it is faithful for dedup behaviour).
* The HTTP layer is an oracle `api : Params → Nat → Option RespJson`:
  for the request `params`, attempt number `n` (1-based) either
  succeeds with a parsed JSON body or fails (transport error or
  non-200 status, both of which the script treats identically).
-/

/-! ### Python string truthiness -/

/-- Truthiness of an optional Python string: `None` and `""` are falsy. -/
def pyTruthy : Option String → Bool
  | none => false
  | some s => !(s == "")

/-- `a or b` for an optional Python string against a string default. -/
def pyStrOr (a : Option String) (b : String) : String :=
  match a with
  | none => b
  | some s => if s == "" then b else s

/-- `a or b` where both operands are optional strings. -/
def pyOptOr (a b : Option String) : Option String :=
  if pyTruthy a then a else b

/-- `item.get(k, "")`. -/
def getOrEmpty : Option String → String
  | none => ""
  | some s => s

/-! ### SHA-1 over byte lists (hashlib.sha1, 32-bit words as `Nat % 2^32`) -/

/-- Truncate to a 32-bit word. -/
def w32 (n : Nat) : Nat := n % 4294967296

/-- Rotate a 32-bit word left by `k` (for `x < 2^32`, `0 < k < 32`). -/
def rotl (k x : Nat) : Nat := (x * 2 ^ k) % 4294967296 + x / 2 ^ (32 - k)

/-- Bitwise complement of a 32-bit word. -/
def bnot32 (x : Nat) : Nat := 4294967295 - x

/-- SHA-1 round function for round `t`. -/
def sha1F (t b c d : Nat) : Nat :=
  if t < 20 then (b &&& c) ||| (bnot32 b &&& d)
  else if t < 40 then b ^^^ c ^^^ d
  else if t < 60 then (b &&& c) ||| (b &&& d) ||| (c &&& d)
  else b ^^^ c ^^^ d

/-- SHA-1 round constant for round `t`. -/
def sha1K (t : Nat) : Nat :=
  if t < 20 then 1518500249
  else if t < 40 then 1859775393
  else if t < 60 then 2400959708
  else 3395469782

/-- `k` bytes of `n`, big-endian. -/
def beBytes (k n : Nat) : List Nat :=
  (List.range k).map (fun i => n / 2 ^ (8 * (k - 1 - i)) % 256)

/-- Big-endian word from a byte list. -/
def beWord (bs : List Nat) : Nat := bs.foldl (fun a b => a * 256 + b) 0

/-- SHA-1 padding: `0x80`, zeros to 56 mod 64, then the 64-bit bit length. -/
def sha1Pad (msg : List Nat) : List Nat :=
  msg ++ [128] ++ List.replicate ((119 - msg.length % 64) % 64) 0
      ++ beBytes 8 (8 * msg.length)

/-- Split into 64-byte blocks, structurally recursive on a fuel bound
(any fuel at least the list length yields all blocks). -/
def chunksGo : Nat → List Nat → List (List Nat)
  | 0, _ => []
  | _, [] => []
  | fuel + 1, l => l.take 64 :: chunksGo fuel (l.drop 64)

/-- Split a padded message into 64-byte blocks. -/
def chunks64 (l : List Nat) : List (List Nat) := chunksGo l.length l

/-- The 16 initial 32-bit words of a 64-byte block. -/
def blockWords (block : List Nat) : List Nat :=
  (List.range 16).map (fun i => beWord ((block.drop (4 * i)).take 4))

/-- One step of the SHA-1 message-schedule extension. -/
def extendStep (ws : List Nat) : List Nat :=
  let n := ws.length
  ws ++ [rotl 1 (ws.getD (n - 3) 0 ^^^ ws.getD (n - 8) 0 ^^^
                 ws.getD (n - 14) 0 ^^^ ws.getD (n - 16) 0)]

/-- SHA-1 working state. -/
structure Sha1State where
  a : Nat
  b : Nat
  c : Nat
  d : Nat
  e : Nat
deriving DecidableEq

/-- SHA-1 initial state. -/
def sha1Init : Sha1State :=
  ⟨1732584193, 4023233417, 2562383102, 271733878, 3285377520⟩

/-- One SHA-1 compression round. -/
def sha1Step (ws : List Nat) (st : Sha1State) (t : Nat) : Sha1State :=
  let temp := w32 (rotl 5 st.a + sha1F t st.b st.c st.d + st.e + sha1K t + ws.getD t 0)
  ⟨temp, st.a, rotl 30 st.b, st.c, st.d⟩

/-- Process one 64-byte block. -/
def processBlock (st : Sha1State) (block : List Nat) : Sha1State :=
  let ws := extendStep^[64] (blockWords block)
  let f := (List.range 80).foldl (sha1Step ws) st
  ⟨w32 (st.a + f.a), w32 (st.b + f.b), w32 (st.c + f.c),
   w32 (st.d + f.d), w32 (st.e + f.e)⟩

/-- Lower-case hex digit. -/
def hexDigit (n : Nat) : Char :=
  if n < 10 then Char.ofNat (48 + n) else Char.ofNat (87 + n)

/-- Eight-hex-digit rendering of a 32-bit word. -/
def hex8 (n : Nat) : String :=
  String.mk ((List.range 8).map (fun i => hexDigit (n / 16 ^ (7 - i) % 16)))

/-- SHA-1 hex digest of a byte list. -/
def sha1Hex (msg : List Nat) : String :=
  let st := (chunks64 (sha1Pad msg)).foldl processBlock sha1Init
  hex8 st.a ++ hex8 st.b ++ hex8 st.c ++ hex8 st.d ++ hex8 st.e

/-- UTF-8 encoding of a single code point. -/
def utf8Bytes (c : Nat) : List Nat :=
  if c < 128 then [c]
  else if c < 2048 then [192 + c / 64, 128 + c % 64]
  else if c < 65536 then [224 + c / 4096, 128 + c / 64 % 64, 128 + c % 64]
  else [240 + c / 262144, 128 + c / 4096 % 64, 128 + c / 64 % 64, 128 + c % 64]

/-- `s.encode("utf-8")` as a byte list. -/
def strBytes (s : String) : List Nat :=
  (s.data.map (fun c => utf8Bytes c.toNat)).flatten

/-! ### Data model -/

/-- One job object from the API's `jobs_results` array (the fields the
script reads; `none` = key absent from the JSON object). -/
structure RawJob where
  apply_link : Option String
  link : Option String
  title : Option String
  company_name : Option String
  location : Option String
  description : Option String
  date : Option String
  source : Option String
deriving DecidableEq

/-- An element of `jobs_results`: only the array itself is type-checked
by `extract_jobs_from_response`, so an element may be any JSON value.
A non-object element makes `job.get` raise `AttributeError` when the
normalizer touches it. -/
inductive JobVal where
  | obj : RawJob → JobVal
  | other : String → JobVal
deriving DecidableEq

/-- Parsed JSON body of a 200 response: the `jobs_results` member may be
absent, a list, or some non-list value. -/
inductive JobsField where
  | list : List JobVal → JobsField
  | nonlist : JobsField
deriving DecidableEq

/-- Response JSON object. -/
structure RespJson where
  jobs_results : Option JobsField
deriving DecidableEq

/-- The query-parameter dict built by `collect_for_query` (the constant
`api_key` entry added by `call_serpapi` is omitted; it never varies). -/
structure Params where
  engine : String
  q : String
  start : Nat
  num : Nat
  location : Option String
  hl : String
  gl : String
deriving DecidableEq

/-- One entry of `LOCATION_HINTS` (`none` = key absent). -/
structure LocationHint where
  location : Option String
  hl : Option String
  gl : Option String
deriving DecidableEq

/-- The normalized record produced by `normalize_job` (the persisted
CSV schema). -/
structure NormRecord where
  id : String
  title : Option String
  company : Option String
  location : Option String
  description : Option String
  date_posted : Option String
  source : Option String
  apply_link : Option String
  raw : String
  role_query : String
  country : String
  language : String
  retrieved_at : String
deriving DecidableEq

/-! ### Configuration (`QUERIES`, `LOCATION_HINTS`, behaviour defaults) -/

/-- `QUERIES`: country → ordered (role, query text) pairs. -/
def QUERIES : List (String × List (String × String)) :=
  [("France",
     [("Product Owner", "Product Owner"),
      ("Scrum Master", "Scrum Master"),
      ("Product Manager", "Product Manager")]),
   ("USA",
     [("Product Owner", "Product Owner"),
      ("Scrum Master", "Scrum Master"),
      ("Product Manager", "Product Manager")]),
   ("Allemagne",
     [("Product Owner", "Product Owner"),
      ("Scrum Master", "Scrum Master"),
      ("Product Manager", "Product Manager")]),
   ("Japon",
     [("Product Owner", "プロダクトオーナー OR Product Owner"),
      ("Scrum Master", "スクラムマスター OR Scrum Master"),
      ("Product Manager", "プロダクトマネージャー OR Product Manager")])]

/-- `LOCATION_HINTS`. -/
def LOCATION_HINTS : List (String × LocationHint) :=
  [("France", ⟨some "France", some "fr", some "fr"⟩),
   ("USA", ⟨some "United States", some "en", some "us"⟩),
   ("Allemagne", ⟨some "Deutschland", some "de", some "de"⟩),
   ("Japon", ⟨some "Japan", some "ja", some "jp"⟩)]

def DEFAULT_MAX_PER_QUERY : Nat := 100
def DEFAULT_PAGE_SIZE : Nat := 10
def MAX_RETRIES : Nat := 3
def DEFAULT_OUTPUT_CSV : String := "data/raw/offres_google_jobs.csv"
def DEFAULT_SAMPLE_CSV : String := "data/raw/offres_google_jobs_sample.csv"

/-- `LOCATION_HINTS.get(country, default)` in `run_collection`. -/
def lookupHint (country : String) : LocationHint :=
  match LOCATION_HINTS.lookup country with
  | some h => h
  | none => ⟨some country, some "en", some ""⟩

/-! ### Record Normalizer -/

/-- `make_id`: SHA-1 hex digest of `apply_link or link or (title + company)`
(Python `or`, so an absent or empty field falls through). -/
def make_id (item : RawJob) : String :=
  let key := pyStrOr item.apply_link
      (pyStrOr item.link (getOrEmpty item.title ++ getOrEmpty item.company_name))
  sha1Hex (strBytes key)

/-- Deterministic stand-in for `json.dumps(job, ensure_ascii=False)`:
a fixed rendering of the job object (no claim depends on the exact JSON
text, only on its determinism as a function of the job). -/
def jsonStr : Option String → String
  | none => "null"
  | some s => "\"" ++ s ++ "\""

/-- Raw-payload snapshot stored in the `raw` column. -/
def rawDump (j : RawJob) : String :=
  "(title:" ++ jsonStr j.title ++ ",company_name:" ++ jsonStr j.company_name ++
  ",location:" ++ jsonStr j.location ++ ",description:" ++ jsonStr j.description ++
  ",date:" ++ jsonStr j.date ++ ",source:" ++ jsonStr j.source ++
  ",apply_link:" ++ jsonStr j.apply_link ++ ",link:" ++ jsonStr j.link ++ ")"

/-- `normalize_job` on a JSON object; `now` is the value of
`datetime.utcnow().isoformat() + "Z"` at this normalization event. -/
def normalize_job (job : RawJob) (role country language : String)
    (now : String) : NormRecord :=
  { id := make_id job
    title := job.title
    company := job.company_name
    location := job.location
    description := job.description
    date_posted := job.date
    source := job.source
    apply_link := pyOptOr job.apply_link job.link
    raw := rawDump job
    role_query := role
    country := country
    language := language
    retrieved_at := now }

/-! ### HTTP layer: `call_serpapi` (retry with exponential backoff) -/

/-- The retry loop of `call_serpapi`, attempts numbered from `attempt`,
`fuel` attempts remaining. Returns (result, attempts made, sleeps in
seconds). The oracle yields `some body` for a 200 response with parsed
JSON `body`, `none` for a transport error or non-200 status. -/
def callLoop (oracle : Nat → Option RespJson) (attempt fuel : Nat) :
    Option RespJson × Nat × List Nat :=
  match fuel with
  | 0 => (none, 0, [])
  | f + 1 =>
    match oracle attempt with
    | some r => (some r, 1, [])
    | none =>
      let rest := callLoop oracle (attempt + 1) f
      (rest.1, rest.2.1 + 1, 2 ^ attempt :: rest.2.2)

/-- `call_serpapi`: up to `MAX_RETRIES` attempts (1-based), sleeping
`2 ** attempt` seconds after each failed attempt, returning `None`
after exhausting retries. -/
def call_serpapi (oracle : Nat → Option RespJson) :
    Option RespJson × Nat × List Nat :=
  callLoop oracle 1 MAX_RETRIES

/-- `extract_jobs_from_response`: `resp_json.get("jobs_results") or []`,
then `jobs if isinstance(jobs, list) else []`. -/
def extract_jobs_from_response (r : RespJson) : List JobVal :=
  match r.jobs_results with
  | some (.list js) => js
  | some .nonlist => []
  | none => []

/-! ### Paginated Fetcher: `collect_for_query` -/

/-- The params dict built for one page request. -/
def mkParams (query : String) (hint : LocationHint) (start ps : Nat) : Params :=
  { engine := "google_jobs"
    q := query
    start := start
    num := ps
    location := hint.location
    hl := hint.hl.getD "en"
    gl := hint.gl.getD "" }

/-- The inner `for job in jobs` loop: append jobs one by one, breaking
as soon as the accumulator reaches `maxr`. -/
def appendUpTo (maxr : Nat) (collected : List JobVal) : List JobVal → List JobVal
  | [] => collected
  | j :: js =>
    let c := collected ++ [j]
    if maxr ≤ c.length then c else appendUpTo maxr c js

theorem length_le_appendUpTo (maxr : Nat) (collected : List JobVal)
    (jobs : List JobVal) :
    collected.length ≤ (appendUpTo maxr collected jobs).length := by
  induction jobs generalizing collected with
  | nil => simp [appendUpTo]
  | cons j js ih =>
    simp only [appendUpTo]
    split
    · simp
    · exact le_trans (by simp) (ih (collected ++ [j]))

theorem appendUpTo_grows (maxr : Nat) (collected : List JobVal)
    (jobs : List JobVal) (h : jobs ≠ []) :
    collected.length < (appendUpTo maxr collected jobs).length := by
  cases jobs with
  | nil => exact absurd rfl h
  | cons j js =>
    simp only [appendUpTo]
    split
    · simp
    · calc collected.length < (collected ++ [j]).length := by simp
        _ ≤ _ := length_le_appendUpTo maxr (collected ++ [j]) js

/-- The `while len(collected) < max_results` loop of `collect_for_query`,
structurally recursive on a fuel bound. Returns (collected jobs, list of
requested `start` offsets, total HTTP attempts made). Stops when the
accumulator is full, when a page request fails after retries, or when a
page yields zero jobs. Every productive iteration grows the accumulator
by at least one job, so any fuel exceeding `maxr` makes the fuel bound
unreachable (see `cfqLoop_fuel_eq`). -/
def cfqLoop (api : Params → Nat → Option RespJson) (query : String)
    (hint : LocationHint) (maxr ps : Nat) :
    Nat → List JobVal → Nat → List JobVal × List Nat × Nat
  | 0, collected, _ => (collected, [], 0)
  | fuel + 1, collected, start =>
    if collected.length < maxr then
      let call := call_serpapi (api (mkParams query hint start ps))
      match call.1 with
      | none => (collected, [start], call.2.1)
      | some resp =>
        let jobs := extract_jobs_from_response resp
        if jobs = [] then (collected, [start], call.2.1)
        else
          let rest := cfqLoop api query hint maxr ps fuel
            (appendUpTo maxr collected jobs) (start + ps)
          (rest.1, start :: rest.2.1, call.2.1 + rest.2.2)
    else (collected, [], 0)

/-- `collect_for_query`: paginated fetch, capped at `max_results`
(`collected[:max_results]` on return). -/
def collect_for_query (api : Params → Nat → Option RespJson) (query : String)
    (hint : LocationHint) (max_results : Nat)
    (page_size : Nat := DEFAULT_PAGE_SIZE) : List JobVal × List Nat × Nat :=
  let r := cfqLoop api query hint max_results page_size (max_results + 1) [] 0
  (r.1.take max_results, r.2.1, r.2.2)

/-- Fuel irrelevance: as long as the fuel exceeds the room left in the
accumulator, the loop's result does not depend on it — the while loop's
real exit conditions are the accumulator cap, a failed call, and an
empty page. -/
theorem cfqLoop_fuel_eq (api : Params → Nat → Option RespJson)
    (query : String) (hint : LocationHint) (maxr ps : Nat) :
    ∀ f1 f2 collected start, maxr - collected.length < f1 →
      maxr - collected.length < f2 →
      cfqLoop api query hint maxr ps f1 collected start =
        cfqLoop api query hint maxr ps f2 collected start := by
  intro f1
  induction f1 with
  | zero => intro f2 collected start h1; omega
  | succ f ih =>
    intro f2 collected start h1 h2
    cases f2 with
    | zero => omega
    | succ g =>
      simp only [cfqLoop]
      by_cases hlt : collected.length < maxr
      · rw [if_pos hlt, if_pos hlt]
        cases (call_serpapi (api (mkParams query hint start ps))).1 with
        | none => rfl
        | some resp =>
          simp only
          by_cases hj : extract_jobs_from_response resp = []
          · rw [if_pos hj, if_pos hj]
          · rw [if_neg hj, if_neg hj]
            have hg := appendUpTo_grows maxr collected
              (extract_jobs_from_response resp) hj
            rw [ih g (appendUpTo maxr collected (extract_jobs_from_response resp))
              (start + ps) (by omega) (by omega)]
      · rw [if_neg hlt, if_neg hlt]

/-! ### Corpus Store: `merge_and_save` (merge-on-write) -/

/-- The filesystem: path → file content (a CSV file is its record list). -/
def FS : Type := String → Option (List NormRecord)

/-- `pandas.drop_duplicates(subset=["id"])` (keep="first"), with the set
of identifiers already seen threaded through. -/
def dropDupsGo (seen : List String) : List NormRecord → List NormRecord
  | [] => []
  | r :: rest =>
    if seen.contains r.id then dropDupsGo seen rest
    else r :: dropDupsGo (r.id :: seen) rest

/-- Drop later duplicates by identifier, keeping first occurrences. -/
def dropDupsById (l : List NormRecord) : List NormRecord := dropDupsGo [] l

/-- `merge_and_save`: read the existing table if the file exists,
concatenate (existing first, then new), dedup by `id` keeping first
occurrences, write the combined table back. -/
def merge_and_save (records : List NormRecord) (output_path : String)
    (fs : FS) : FS :=
  let combined :=
    match fs output_path with
    | some old => dropDupsById (old ++ records)
    | none => dropDupsById records
  fun p => if p = output_path then some combined else fs p

/-! ### Collection Orchestrator: `run_collection` and `main` -/

/-- The `for job in jobs: all_normalized.append(normalize_job(job, ...))`
loop inside the orchestrator's `try` block. `k` indexes the clock: each
normalization event reads `clock k` as its `utcnow()`. A non-object job
raises, aborting the loop (the records already appended are kept) and
transferring control to the `except` handler; the third component
reports whether that happened. -/
def normalizeLoop (role country language : String) (clock : Nat → String) :
    List JobVal → Nat → List NormRecord × Nat × Bool
  | [], k => ([], k, false)
  | .obj job :: js, k =>
    let r := normalize_job job role country language (clock k)
    let rest := normalizeLoop role country language clock js (k + 1)
    (r :: rest.1, rest.2)
  | .other _ :: _, k => ([], k, true)

/-- Per-query outcome recorded by the model: the (country, role) pair,
the query text, the records this query contributed to the accumulator,
whether its `try` block raised, and the HTTP attempts it made. -/
structure QueryOutcome where
  country : String
  role : String
  q : String
  records : List NormRecord
  raised : Bool
  attempts : Nat
deriving DecidableEq

/-- The body of the orchestrator's inner loop for one (country, role)
pair: fetch, then normalize each job. Returns the outcome and the
advanced clock index. -/
def runQuery (api : Params → Nat → Option RespJson) (clock : Nat → String)
    (effectiveMax : Nat) (country role qtext : String) (k : Nat) :
    QueryOutcome × Nat :=
  let hint := lookupHint country
  let language := hint.hl.getD "en"
  let fetched := collect_for_query api qtext hint effectiveMax
  let res := normalizeLoop role country language clock fetched.1 k
  ({ country := country, role := role, q := qtext, records := res.1,
     raised := res.2.2, attempts := fetched.2.2 }, res.2.1)

/-- The flattened (country, role, query text) traversal order of the
nested `for country ... for role ...` loops. -/
def allPairs : List (String × String × String) :=
  (QUERIES.map (fun cr => cr.2.map (fun rq => (cr.1, rq.1, rq.2)))).flatten

/-- The orchestrator's traversal of the query matrix: a failed query is
caught and logged, and the traversal continues with the next pair. -/
def orchLoop (api : Params → Nat → Option RespJson) (clock : Nat → String)
    (effectiveMax : Nat) : List (String × String × String) → Nat →
    List QueryOutcome
  | [], _ => []
  | (c, r, q) :: rest, k =>
    let o := runQuery api clock effectiveMax c r q k
    o.1 :: orchLoop api clock effectiveMax rest o.2

/-- All per-query outcomes of one run. -/
def orchOutcomes (api : Params → Nat → Option RespJson)
    (clock : Nat → String) (effectiveMax : Nat) : List QueryOutcome :=
  orchLoop api clock effectiveMax allPairs 0

/-- Code-point-wise lexicographic `a <= b` on strings (Python's string
comparison, which drives pandas' sort on an identifier column). -/
def strLeChars : List Char → List Char → Bool
  | [], _ => true
  | _ :: _, [] => false
  | a :: as, b :: bs =>
    if a.toNat < b.toNat then true
    else if b.toNat < a.toNat then false
    else strLeChars as bs

/-- `a <= b` on strings by code points. -/
def strLe (a b : String) : Bool := strLeChars a.data b.data

/-- Stable sort by identifier: the model of
`df.sort_values(by="id")` (pandas' sort is deterministic on a given
input; ties between equal identifiers are broken by position here). -/
def insertById (r : NormRecord) : List NormRecord → List NormRecord
  | [] => [r]
  | x :: xs => if strLe r.id x.id then r :: x :: xs else x :: insertById r xs

/-- `df.sort_values(by="id")`. -/
def sortById (l : List NormRecord) : List NormRecord :=
  l.foldr insertById []

/-- Result of one `run_collection` call: final filesystem, console log,
and the total number of HTTP requests issued. -/
structure RunResult where
  fs : FS
  log : List String
  netAttempts : Nat

/-- The log line printed when `SERPAPI_KEY` is missing. -/
def missingKeyMsg : String :=
  "SERPAPI_KEY non configure. Exportez SERPAPI_KEY dans votre environnement."

/-- `run_collection`. `key` is the value of the `SERPAPI_KEY`
environment variable at module load (`None` = unset; Python truthiness
applies). In dry-run the per-query cap is `max(1, sample_size)`; the
accumulated batch is sorted by id, truncated to `sample_size`, and
handed to `merge_and_save` on the sample path; otherwise the whole
batch is merged into the output path. An empty batch short-circuits
before any write. -/
def run_collection (key : Option String)
    (api : Params → Nat → Option RespJson) (clock : Nat → String)
    (max_per_query : Nat) (dry_run : Bool) (sample_size : Nat)
    (output : Option String) (fs : FS) : RunResult :=
  if !pyTruthy key then
    { fs := fs, log := [missingKeyMsg], netAttempts := 0 }
  else
    let effective_max := if dry_run then max 1 sample_size else max_per_query
    let outcomes := orchLoop api clock effective_max allPairs 0
    let all_normalized := (outcomes.map (·.records)).flatten
    let attempts := (outcomes.map (·.attempts)).sum
    let errLog := (outcomes.filter (·.raised)).map
      (fun o => "Erreur lors de la collecte " ++ o.country ++ " / " ++ o.role)
    if all_normalized.isEmpty then
      { fs := fs, log := errLog ++ ["Aucun enregistrement collecte."],
        netAttempts := attempts }
    else if dry_run then
      let sample_path := pyStrOr output DEFAULT_SAMPLE_CSV
      let df_sampled := (sortById all_normalized).take sample_size
      { fs := merge_and_save df_sampled sample_path fs
        log := errLog ++ ["Mode dry-run: echantillon ecrit."]
        netAttempts := attempts }
    else
      let out_path := pyStrOr output DEFAULT_OUTPUT_CSV
      { fs := merge_and_save all_normalized out_path fs
        log := errLog
        netAttempts := attempts }

/-- `main` plus the process exit status: the script installs no
`sys.exit` call and `run_collection` returns normally in every branch
(the missing-credential branch is `print(...); return`), so the
interpreter exits with status 0 in all modelled executions. -/
def script_main (key : Option String)
    (api : Params → Nat → Option RespJson) (clock : Nat → String)
    (dry_run : Bool) (sample_size max_per_query : Nat)
    (output : Option String) (fs : FS) : Nat × RunResult :=
  (0, run_collection key api clock max_per_query dry_run sample_size output fs)

/-! ### Spec-side definitions

These follow the specification's wording, for comparison with the
definitions translated from the code. -/

/-- Modelled from the spec's merge description: "drop later duplicates
by identifier, keeping the first occurrence": keep the head, drop every
later record with the same identifier, recurse. -/
def firstOccurrence : List NormRecord → List NormRecord
  | [] => []
  | r :: rest => r :: firstOccurrence (rest.filter (fun x => !(x.id == r.id)))
termination_by l => l.length
decreasing_by
  exact Nat.lt_succ_of_le (List.length_filter_le _ _)

/-- Erase the retrieval timestamp (the one wall-clock-dependent field). -/
def stripTime (r : NormRecord) : NormRecord := { r with retrieved_at := "" }

/-- The longest all-object initial segment of a `jobs_results` list. -/
def objStem : List JobVal → List RawJob
  | .obj j :: js => j :: objStem js
  | _ => []

/-- Whether the normalization loop over this job list raises
(`True` iff a non-object element occurs after the object stem). -/
def hitsMalformed : List JobVal → Bool
  | [] => false
  | .obj _ :: js => hitsMalformed js
  | .other _ :: _ => true

/-- A page request at offset `o` that succeeded with a non-empty jobs
list (the only situation in which the fetcher requests a further page). -/
def goodPage (api : Params → Nat → Option RespJson) (query : String)
    (hint : LocationHint) (ps o : Nat) : Prop :=
  ∃ r, (call_serpapi (api (mkParams query hint o ps))).1 = some r ∧
    extract_jobs_from_response r ≠ []

/-! ### Deduplication lemmas -/

theorem containsMem {l : List String} {x : String} :
    l.contains x = true ↔ x ∈ l :=
  List.elem_iff

/-- The set of identifiers recorded after `dropDupsGo seen l` scans `l`. -/
def seenAfter (seen : List String) : List NormRecord → List String
  | [] => seen
  | r :: rest =>
    if seen.contains r.id then seenAfter seen rest
    else seenAfter (r.id :: seen) rest

theorem mem_seenAfter (x : String) (seen : List String)
    (l : List NormRecord) :
    x ∈ seenAfter seen l ↔ x ∈ seen ∨ x ∈ l.map (·.id) := by
  induction l generalizing seen with
  | nil => simp [seenAfter]
  | cons r rest ih =>
    simp only [seenAfter]
    split
    · rename_i hc
      rw [ih]
      simp only [List.map_cons, List.mem_cons]
      constructor
      · tauto
      · rintro (h | h | h)
        · tauto
        · subst h; left; exact containsMem.mp hc
        · tauto
    · rw [ih]
      simp only [List.mem_cons, List.map_cons]
      tauto

theorem dropDupsGo_append (seen : List String) (l m : List NormRecord) :
    dropDupsGo seen (l ++ m) =
      dropDupsGo seen l ++ dropDupsGo (seenAfter seen l) m := by
  induction l generalizing seen with
  | nil => simp [dropDupsGo, seenAfter]
  | cons r rest ih =>
    simp only [List.cons_append, dropDupsGo, seenAfter]
    split
    · exact ih seen
    · simp [ih (r.id :: seen)]

theorem dropDupsGo_eq_nil (seen : List String) (m : List NormRecord)
    (h : ∀ r ∈ m, r.id ∈ seen) : dropDupsGo seen m = [] := by
  induction m with
  | nil => rfl
  | cons r rest ih =>
    have hr : seen.contains r.id := containsMem.mpr (h r (by simp))
    simp only [dropDupsGo, hr, if_pos]
    exact ih (fun x hx => h x (by simp [hx]))

theorem mem_map_id_dropDupsGo (x : String) (seen : List String)
    (l : List NormRecord) :
    x ∈ (dropDupsGo seen l).map (·.id) ↔ x ∈ l.map (·.id) ∧ x ∉ seen := by
  induction l generalizing seen with
  | nil => simp [dropDupsGo]
  | cons r rest ih =>
    simp only [dropDupsGo]
    split
    · rename_i hc
      rw [ih]
      simp only [List.map_cons, List.mem_cons]
      constructor
      · tauto
      · rintro ⟨h | h, hn⟩
        · subst h; exact absurd (containsMem.mp hc) hn
        · tauto
    · rename_i hc
      simp only [List.map_cons, List.mem_cons, ih]
      constructor
      · rintro (h | ⟨hm, hn⟩)
        · subst h
          exact ⟨Or.inl rfl, fun hs => hc (containsMem.mpr hs)⟩
        · exact ⟨Or.inr hm, fun hs => hn (by simp [hs])⟩
      · rintro ⟨h | h, hn⟩
        · tauto
        · by_cases hx : x = r.id
          · exact Or.inl hx
          · right
            exact ⟨h, by simp only [List.mem_cons, not_or]; tauto⟩

theorem dropDupsGo_idem (seen : List String) (l : List NormRecord) :
    dropDupsGo seen (dropDupsGo seen l) = dropDupsGo seen l := by
  induction l generalizing seen with
  | nil => rfl
  | cons r rest ih =>
    simp only [dropDupsGo]
    split
    · exact ih seen
    · rename_i hc
      simp only [dropDupsGo, hc, if_neg, Bool.false_eq_true, not_false_iff]
      rw [ih (r.id :: seen)]

theorem nodup_map_id_dropDupsGo (seen : List String) (l : List NormRecord) :
    ((dropDupsGo seen l).map (·.id)).Nodup := by
  induction l generalizing seen with
  | nil => simp [dropDupsGo]
  | cons r rest ih =>
    simp only [dropDupsGo]
    split
    · exact ih seen
    · simp only [List.map_cons, List.nodup_cons]
      refine ⟨fun hm => ?_, ih (r.id :: seen)⟩
      have := (mem_map_id_dropDupsGo r.id (r.id :: seen) rest).mp hm
      simp at this

/-- Merging a batch whose identifiers already occur in `l` on top of the
deduplication of `l` is a no-op. -/
theorem dropDups_absorb (l b : List NormRecord)
    (h : ∀ r ∈ b, r.id ∈ l.map (·.id)) :
    dropDupsById (dropDupsById l ++ b) = dropDupsById l := by
  unfold dropDupsById
  rw [dropDupsGo_append, dropDupsGo_idem]
  have hnil : dropDupsGo (seenAfter [] (dropDupsGo [] l)) b = [] := by
    apply dropDupsGo_eq_nil
    intro r hr
    rw [mem_seenAfter]
    right
    rw [mem_map_id_dropDupsGo]
    exact ⟨h r hr, by simp⟩
  simp [hnil]

theorem dropDupsGo_eq_firstOccurrence (seen : List String)
    (l : List NormRecord) :
    dropDupsGo seen l =
      firstOccurrence (l.filter (fun x => !seen.contains x.id)) := by
  induction l generalizing seen with
  | nil => simp [dropDupsGo, firstOccurrence]
  | cons r rest ih =>
    simp only [dropDupsGo, List.filter_cons]
    split
    · rename_i hc
      rw [hc]
      simpa using ih seen
    · rename_i hc
      have hcf : seen.contains r.id = false := by
        cases h : seen.contains r.id with
        | false => rfl
        | true => exact absurd h hc
      rw [hcf]
      simp only [Bool.not_false, if_pos]
      rw [firstOccurrence, List.filter_filter, ih (r.id :: seen)]
      congr 2
      apply List.filter_congr
      intro a _
      simp only [List.contains_cons, Bool.not_or]

/-- The code's deduplication coincides with the spec's "keep the first
occurrence of each identifier, drop every later duplicate". -/
theorem dropDupsById_eq_firstOccurrence (l : List NormRecord) :
    dropDupsById l = firstOccurrence l := by
  unfold dropDupsById
  rw [dropDupsGo_eq_firstOccurrence]
  congr 1
  simp

theorem merge_and_save_at_path (records : List NormRecord) (path : String)
    (fs : FS) :
    merge_and_save records path fs path =
      some (match fs path with
            | some old => dropDupsById (old ++ records)
            | none => dropDupsById records) := by
  simp [merge_and_save]

theorem merge_twice_eq (records : List NormRecord) (path : String) (fs : FS) :
    merge_and_save records path (merge_and_save records path fs) =
      merge_and_save records path fs := by
  funext p
  by_cases hp : p = path
  · subst hp
    rw [merge_and_save_at_path, merge_and_save_at_path]
    cases hf : fs p with
    | some old =>
      simp only
      congr 1
      refine dropDups_absorb (old ++ records) records (fun r hr => ?_)
      rw [List.map_append]
      exact List.mem_append_right _ (List.mem_map_of_mem _ hr)
    | none =>
      simp only
      congr 1
      exact dropDups_absorb records records
        (fun r hr => List.mem_map_of_mem _ hr)
  · show (if p = path then _ else merge_and_save records path fs p) = _
    rw [if_neg hp]

/-! ### Claim theorems: the Corpus Store (C3, C4, C10) -/

/-- C3. Merging is idempotent: for every batch of normalized records and
every corpus file state, running `merge_and_save` with the same batch
twice yields exactly the file state (hence the same row set and row
count) produced by running it once; re-merging an identical batch does
not grow the corpus. -/
theorem merge_and_save_idempotent (records : List NormRecord)
    (path : String) (fs : FS) :
    merge_and_save records path (merge_and_save records path fs) =
      merge_and_save records path fs ∧
    ∀ l l', merge_and_save records path fs path = some l →
      merge_and_save records path (merge_and_save records path fs) path = some l' →
      l'.length = l.length := by
  refine ⟨merge_twice_eq records path fs, ?_⟩
  intro l l' hl hl'
  rw [merge_twice_eq records path fs, hl] at hl'
  cases hl'
  rfl

/-- A concrete normalized record used by witnesses. -/
def recA : NormRecord :=
  { id := "a", title := none, company := none, location := none,
    description := none, date_posted := none, source := none,
    apply_link := none, raw := "", role_query := "", country := "",
    language := "", retrieved_at := "" }

/-- A second concrete normalized record. -/
def recB : NormRecord := { recA with id := "b" }

/-- Witness for C3's second conjunct at a concrete corpus and batch. -/
theorem merge_and_save_idempotent_witness :
    ∃ l l', merge_and_save [recA, recB, recA] "out.csv" (fun _ => none) "out.csv" = some l ∧
      merge_and_save [recA, recB, recA] "out.csv"
        (merge_and_save [recA, recB, recA] "out.csv" (fun _ => none)) "out.csv" = some l' ∧
      l'.length = l.length ∧ l.length = 2 := by
  refine ⟨[recA, recB], [recA, recB], by decide, by decide, ?_, by decide⟩
  exact (merge_and_save_idempotent [recA, recB, recA] "out.csv" (fun _ => none)).2
    [recA, recB] [recA, recB] (by decide) (by decide)

theorem nodup_filter_id_le_one (l : List NormRecord) (s : String)
    (h : (l.map (·.id)).Nodup) :
    (l.filter (fun r => r.id == s)).length ≤ 1 := by
  have hc : (l.filter (fun r => r.id == s)).length =
      (l.map (·.id)).count s := by
    rw [List.count, List.countP_map, ← List.countP_eq_length_filter]
    rfl
  rw [hc]
  exact List.nodup_iff_count_le_one.mp h s

/-- C4. For every existing corpus table and every new batch, the table
persisted by `merge_and_save` equals the concatenation of the existing
rows followed by the new rows with every later duplicate by identifier
dropped (first occurrence kept, relative order preserved); in
particular, after a merge no two persisted rows share an identifier. -/
theorem merge_and_save_keeps_first_occurrences (fs : FS) (path : String)
    (old new : List NormRecord) (h : fs path = some old) :
    merge_and_save new path fs path = some (firstOccurrence (old ++ new)) ∧
    ∀ l, merge_and_save new path fs path = some l → (l.map (·.id)).Nodup := by
  have hp : merge_and_save new path fs path =
      some (dropDupsById (old ++ new)) := by
    rw [merge_and_save_at_path, h]
  constructor
  · rw [hp, dropDupsById_eq_firstOccurrence]
  · intro l hl
    rw [hp] at hl
    cases hl
    exact nodup_map_id_dropDupsGo [] (old ++ new)

/-- Witness for C4 at a concrete corpus file and batch. -/
theorem merge_and_save_keeps_first_occurrences_witness :
    merge_and_save [recB, recA] "corpus.csv"
        (fun p => if p = "corpus.csv" then some [recA] else none) "corpus.csv" =
      some (firstOccurrence ([recA] ++ [recB, recA])) ∧
    ((firstOccurrence ([recA] ++ [recB, recA])) = [recA, recB] ∧
     ∀ l, merge_and_save [recB, recA] "corpus.csv"
        (fun p => if p = "corpus.csv" then some [recA] else none) "corpus.csv" =
          some l → (l.map (·.id)).Nodup) := by
  have h := merge_and_save_keeps_first_occurrences
    (fun p => if p = "corpus.csv" then some [recA] else none) "corpus.csv"
    [recA] [recB, recA] (by decide)
  refine ⟨h.1, ?_, h.2⟩
  rw [← dropDupsById_eq_firstOccurrence]
  decide

/-- A raw job with a link and one field of noise. -/
def jobLinked : RawJob :=
  { apply_link := none, link := some "https://x.test/1", title := some "T",
    company_name := some "C", location := none,
    description := some "first description", date := none, source := none }

/-- The same four key fields as `jobLinked`, different other fields. -/
def jobLinked2 : RawJob :=
  { apply_link := none, link := some "https://x.test/1", title := some "T",
    company_name := some "C", location := some "Paris",
    description := some "second description", date := some "today",
    source := some "s" }

/-! ### Paginated Fetcher lemmas and claim theorems (C6, C7) -/

theorem cfqLoop_trace_range (api : Params → Nat → Option RespJson)
    (query : String) (hint : LocationHint) (maxr ps : Nat) :
    ∀ fuel collected start, ∃ n,
      (cfqLoop api query hint maxr ps fuel collected start).2.1 =
        List.range' start n ps := by
  intro fuel
  induction fuel with
  | zero => intro collected start; exact ⟨0, rfl⟩
  | succ f ih =>
    intro collected start
    simp only [cfqLoop]
    by_cases hlt : collected.length < maxr
    · rw [if_pos hlt]
      cases hc : (call_serpapi (api (mkParams query hint start ps))).1 with
      | none => exact ⟨1, rfl⟩
      | some resp =>
        simp only
        by_cases hj : extract_jobs_from_response resp = []
        · rw [if_pos hj]; exact ⟨1, rfl⟩
        · rw [if_neg hj]
          obtain ⟨n, hn⟩ := ih
            (appendUpTo maxr collected (extract_jobs_from_response resp))
            (start + ps)
          exact ⟨n + 1, by rw [List.range'_succ]; simp [hn]⟩
    · rw [if_neg hlt]; exact ⟨0, rfl⟩

theorem chain_le_range' (ps : Nat) : ∀ (n s : Nat),
    List.Chain' (· ≤ ·) (List.range' s n ps) := by
  intro n
  induction n with
  | zero => intro s; simp
  | succ m ih =>
    intro s
    rw [List.range'_succ]
    cases m with
    | zero => simp
    | succ k =>
      rw [List.range'_succ]
      exact List.Chain'.cons (Nat.le_add_right s ps)
        (by rw [← List.range'_succ]; exact ih (s + ps))

theorem mem_dropLast_cons {α : Type} {o a : α} {l : List α}
    (h : o ∈ (a :: l).dropLast) : o = a ∨ o ∈ l.dropLast := by
  cases l with
  | nil => simp at h
  | cons x xs =>
    rw [List.dropLast_cons₂] at h
    exact List.mem_cons.mp h

theorem cfqLoop_good_pages (api : Params → Nat → Option RespJson)
    (query : String) (hint : LocationHint) (maxr ps : Nat) :
    ∀ fuel collected start o,
      o ∈ (cfqLoop api query hint maxr ps fuel collected start).2.1.dropLast →
      goodPage api query hint ps o := by
  intro fuel
  induction fuel with
  | zero => intro collected start o ho; simp [cfqLoop] at ho
  | succ f ih =>
    intro collected start o ho
    simp only [cfqLoop] at ho
    by_cases hlt : collected.length < maxr
    · rw [if_pos hlt] at ho
      cases hc : (call_serpapi (api (mkParams query hint start ps))).1 with
      | none => rw [hc] at ho; simp at ho
      | some resp =>
        rw [hc] at ho
        dsimp only at ho
        by_cases hj : extract_jobs_from_response resp = []
        · rw [if_pos hj] at ho; simp at ho
        · rw [if_neg hj] at ho
          dsimp only at ho
          rcases mem_dropLast_cons ho with h | h
          · exact h ▸ ⟨resp, hc, hj⟩
          · exact ih
              (appendUpTo maxr collected (extract_jobs_from_response resp))
              (start + ps) o h
    · rw [if_neg hlt] at ho; simp at ho

/-- C6. For every query and cap, the Paginated Fetcher returns at most
`max_results` raw records, issues its page requests at non-decreasing
offsets, and once a page request fails or returns zero results it issues
no further page requests: every offset in the request trace except the
last received a successful response with a non-empty jobs list. -/
theorem collect_for_query_pagination (api : Params → Nat → Option RespJson)
    (query : String) (hint : LocationHint) (maxr ps : Nat) :
    (collect_for_query api query hint maxr ps).1.length ≤ maxr ∧
    List.Chain' (· ≤ ·) (collect_for_query api query hint maxr ps).2.1 ∧
    ∀ o, o ∈ (collect_for_query api query hint maxr ps).2.1.dropLast →
      goodPage api query hint ps o := by
  refine ⟨List.length_take_le maxr _, ?_, ?_⟩
  · show List.Chain' (· ≤ ·) (cfqLoop api query hint maxr ps (maxr + 1) [] 0).2.1
    obtain ⟨n, hn⟩ := cfqLoop_trace_range api query hint maxr ps (maxr + 1) [] 0
    rw [hn]
    exact chain_le_range' ps n 0
  · intro o ho
    exact cfqLoop_good_pages api query hint maxr ps (maxr + 1) [] 0 o ho

/-- A mock API: one job on the first page, an empty page afterwards. -/
def apiOnePage : Params → Nat → Option RespJson :=
  fun p _ => if p.start = 0 then some ⟨some (.list [.obj jobLinked])⟩
             else some ⟨some (.list [])⟩

/-- Witness for C6 with a concrete two-page interaction: the trace is
`[0, 10]` and its non-final offset 0 was a good page. -/
theorem collect_for_query_pagination_witness :
    (collect_for_query apiOnePage "q" (lookupHint "France") 2).2.1 = [0, 10] ∧
    (collect_for_query apiOnePage "q" (lookupHint "France") 2).1.length ≤ 2 ∧
    List.Chain' (· ≤ ·)
      (collect_for_query apiOnePage "q" (lookupHint "France") 2).2.1 ∧
    goodPage apiOnePage "q" (lookupHint "France") 10 0 := by
  have h := collect_for_query_pagination apiOnePage "q" (lookupHint "France")
    2 DEFAULT_PAGE_SIZE
  exact ⟨by decide, h.1, h.2.1, h.2.2 0 (by decide)⟩

/-- One unrolling of the fetch loop at a page whose request failed after
retries: the loop stops and returns exactly the jobs already collected. -/
theorem cfqLoop_keeps_collected (api : Params → Nat → Option RespJson)
    (query : String) (hint : LocationHint) (maxr ps fuel : Nat)
    (collected : List JobVal) (start : Nat)
    (hlt : collected.length < maxr)
    (hfail : (call_serpapi (api (mkParams query hint start ps))).1 = none) :
    (cfqLoop api query hint maxr ps (fuel + 1) collected start).1 = collected ∧
    (cfqLoop api query hint maxr ps (fuel + 1) collected start).2.1 = [start] := by
  simp only [cfqLoop, if_pos hlt]
  constructor <;> · rw [show (call_serpapi (api (mkParams query hint start ps)))
      = (none, (call_serpapi (api (mkParams query hint start ps))).2) from
        Prod.ext hfail rfl]

/-- C7. If every HTTP attempt fails, `call_serpapi` performs exactly
`MAX_RETRIES = 3` attempts, sleeping `2 ^ attempt` seconds after each
(backoffs 2, 4, 8), then returns failure; and a fetch loop whose page
request fails stops collecting for that query while returning the
records already collected rather than discarding them. -/
theorem call_serpapi_retry_bound :
    (∀ oracle : Nat → Option RespJson,
      (∀ a, 1 ≤ a → a ≤ MAX_RETRIES → oracle a = none) →
      call_serpapi oracle = (none, MAX_RETRIES, [2, 4, 8])) ∧
    (∀ api query hint maxr ps fuel collected start,
      collected.length < maxr →
      (call_serpapi (api (mkParams query hint start ps))).1 = none →
      (cfqLoop api query hint maxr ps (fuel + 1) collected start).1 = collected ∧
      (cfqLoop api query hint maxr ps (fuel + 1) collected start).2.1 = [start]) := by
  constructor
  · intro oracle h
    have h1 := h 1 (by omega) (by decide)
    have h2 := h 2 (by omega) (by decide)
    have h3 := h 3 (by omega) (by decide)
    simp [call_serpapi, MAX_RETRIES, callLoop, h1, h2, h3]
  · intro api query hint maxr ps fuel collected start hlt hfail
    exact cfqLoop_keeps_collected api query hint maxr ps fuel collected start
      hlt hfail

/-- A mock API that always fails. -/
def apiAlwaysFail : Params → Nat → Option RespJson := fun _ _ => none

/-- Witness for C7: the always-failing oracle consumes exactly three
attempts with backoffs 2, 4, 8, and the fetcher keeps the one job it had
already collected when the second page's request fails. -/
theorem call_serpapi_retry_bound_witness :
    call_serpapi (fun _ => none) = (none, MAX_RETRIES, [2, 4, 8]) ∧
    (cfqLoop apiAlwaysFail "q" (lookupHint "USA") 5 10 3 [.obj jobLinked] 10).1 =
      [.obj jobLinked] ∧
    (cfqLoop apiAlwaysFail "q" (lookupHint "USA") 5 10 3 [.obj jobLinked] 10).2.1 =
      [10] := by
  refine ⟨call_serpapi_retry_bound.1 (fun _ => none) (fun _ _ _ => rfl), ?_⟩
  have h := call_serpapi_retry_bound.2 apiAlwaysFail "q" (lookupHint "USA")
    5 10 2 [.obj jobLinked] 10 (by decide) (by decide)
  exact h

/-! ### Claim theorems: the Record Normalizer (C9, C10) -/

theorem pyStrOr_truthy (a : Option String) (b : String)
    (h : pyTruthy a = true) : pyStrOr a b = getOrEmpty a := by
  cases a with
  | none => simp [pyTruthy] at h
  | some s =>
    simp only [pyTruthy, Bool.not_eq_true'] at h
    simp [pyStrOr, h, getOrEmpty]

theorem pyStrOr_falsy (a : Option String) (b : String)
    (h : pyTruthy a = false) : pyStrOr a b = b := by
  cases a with
  | none => rfl
  | some s =>
    simp only [pyTruthy, Bool.not_eq_false'] at h
    simp [pyStrOr, h]

/-- C9. `make_id` is the SHA-1 hex digest of, in priority order, the
`apply_link` field, else the `link` field, else the concatenation of
`title` and `company_name` (an absent or empty field falls through,
per Python `or`); hence any two raw records agreeing on these four
fields — whatever their other fields — receive the same identifier. -/
theorem make_id_sha1_priority :
    (∀ i1 i2 : RawJob, i1.apply_link = i2.apply_link → i1.link = i2.link →
      i1.title = i2.title → i1.company_name = i2.company_name →
      make_id i1 = make_id i2) ∧
    (∀ item : RawJob, pyTruthy item.apply_link = true →
      make_id item = sha1Hex (strBytes (getOrEmpty item.apply_link))) ∧
    (∀ item : RawJob, pyTruthy item.apply_link = false →
      pyTruthy item.link = true →
      make_id item = sha1Hex (strBytes (getOrEmpty item.link))) ∧
    (∀ item : RawJob, pyTruthy item.apply_link = false →
      pyTruthy item.link = false →
      make_id item = sha1Hex (strBytes
        (getOrEmpty item.title ++ getOrEmpty item.company_name))) := by
  refine ⟨?_, ?_, ?_, ?_⟩
  · intro i1 i2 h1 h2 h3 h4
    unfold make_id
    rw [h1, h2, h3, h4]
  · intro item h
    unfold make_id
    rw [pyStrOr_truthy _ _ h]
  · intro item h1 h2
    unfold make_id
    rw [pyStrOr_falsy _ _ h1, pyStrOr_truthy _ _ h2]
  · intro item h1 h2
    unfold make_id
    rw [pyStrOr_falsy _ _ h1, pyStrOr_falsy _ _ h2]

/-- Witness for C9: identical key fields with different noise fields
give the identical identifier, and a record whose `apply_link` is
absent hashes its `link`. -/
theorem make_id_sha1_priority_witness :
    make_id jobLinked = make_id jobLinked2 ∧
    make_id jobLinked = sha1Hex (strBytes "https://x.test/1") := by
  constructor
  · exact make_id_sha1_priority.1 jobLinked jobLinked2 rfl rfl rfl rfl
  · exact make_id_sha1_priority.2.2.1 jobLinked (by decide) (by decide)

/-- The SHA-1 hex digest of the empty string. -/
def emptyKeyDigest : String := "da39a3ee5e6b4b0d3255bfef95601890afd80709"

theorem sha1_empty_string : sha1Hex (strBytes "") = emptyKeyDigest := by
  decide

/-- C10. Any two raw records in which `apply_link`, `link`, `title` and
`company_name` are all absent or empty receive the identical identifier,
namely the SHA-1 digest of the empty string; and after any merge at most
one record carrying that identifier survives in the persisted corpus,
regardless of any differences in their other fields. -/
theorem make_id_blank_fields_collide (i1 i2 : RawJob)
    (h1 : pyTruthy i1.apply_link = false) (h2 : pyTruthy i1.link = false)
    (h3 : getOrEmpty i1.title = "") (h4 : getOrEmpty i1.company_name = "")
    (h5 : pyTruthy i2.apply_link = false) (h6 : pyTruthy i2.link = false)
    (h7 : getOrEmpty i2.title = "") (h8 : getOrEmpty i2.company_name = "") :
    make_id i1 = emptyKeyDigest ∧ make_id i2 = emptyKeyDigest ∧
    ∀ records path fs l, merge_and_save records path fs path = some l →
      (l.filter (fun r => r.id == emptyKeyDigest)).length ≤ 1 := by
  have key : ∀ i : RawJob, pyTruthy i.apply_link = false →
      pyTruthy i.link = false → getOrEmpty i.title = "" →
      getOrEmpty i.company_name = "" → make_id i = emptyKeyDigest := by
    intro i ha hb hc hd
    unfold make_id
    rw [pyStrOr_falsy _ _ ha, pyStrOr_falsy _ _ hb, hc, hd]
    exact sha1_empty_string
  refine ⟨key i1 h1 h2 h3 h4, key i2 h5 h6 h7 h8, ?_⟩
  intro records path fs l hl
  rw [merge_and_save_at_path] at hl
  have hnodup : (l.map (·.id)).Nodup := by
    cases hf : fs path with
    | some old =>
      rw [hf] at hl
      cases hl
      exact nodup_map_id_dropDupsGo [] (old ++ records)
    | none =>
      rw [hf] at hl
      cases hl
      exact nodup_map_id_dropDupsGo [] records
  exact nodup_filter_id_le_one l emptyKeyDigest hnodup

/-- A raw job with every identifier-relevant field absent or empty. -/
def jobBlank1 : RawJob :=
  { apply_link := none, link := some "", title := none,
    company_name := some "", location := some "Lyon",
    description := some "nothing to key on", date := none, source := none }

/-- Another all-blank-key job with different other fields. -/
def jobBlank2 : RawJob :=
  { apply_link := some "", link := none, title := some "",
    company_name := none, location := none,
    description := some "entirely different noise", date := some "d",
    source := some "s" }

/-- Witness for C10 at two concrete key-blank records and one concrete
merge. -/
theorem make_id_blank_fields_collide_witness :
    make_id jobBlank1 = emptyKeyDigest ∧
    make_id jobBlank2 = emptyKeyDigest ∧
    ((merge_and_save
        [normalize_job jobBlank1 "r" "c" "l" "t1",
         normalize_job jobBlank2 "r" "c" "l" "t2"] "out.csv"
        (fun _ => none) "out.csv").map
      (fun l => (l.filter (fun r => r.id == emptyKeyDigest)).length) =
      some 1) := by
  have h := make_id_blank_fields_collide jobBlank1 jobBlank2
    (by decide) (by decide) (by decide) (by decide)
    (by decide) (by decide) (by decide) (by decide)
  exact ⟨h.1, h.2.1, by decide⟩

/-! ### Orchestrator lemmas and claim theorems (C5, C1, C2, C8) -/

/-- Normalization of an all-object job list starting at clock index `k`. -/
def normStem (role country language : String) (clock : Nat → String) :
    Nat → List RawJob → List NormRecord
  | _, [] => []
  | k, j :: js => normalize_job j role country language (clock k) ::
      normStem role country language clock (k + 1) js

theorem normStem_length (role country language : String)
    (clock : Nat → String) : ∀ k l,
    (normStem role country language clock k l).length = l.length := by
  intro k l
  induction l generalizing k with
  | nil => rfl
  | cons j js ih => simp [normStem, ih]

/-- The normalize loop normalizes exactly the all-object stem of the
fetched jobs, advances the clock by its length, and raises precisely
when a non-object element follows. -/
theorem normalizeLoop_eq (role country language : String)
    (clock : Nat → String) : ∀ jobs k,
    normalizeLoop role country language clock jobs k =
      (normStem role country language clock k (objStem jobs),
       k + (objStem jobs).length, hitsMalformed jobs) := by
  intro jobs
  induction jobs with
  | nil => intro k; simp [normalizeLoop, objStem, normStem, hitsMalformed]
  | cons j js ih =>
    intro k
    cases j with
    | obj job =>
      simp only [normalizeLoop, objStem, normStem, hitsMalformed, ih (k + 1),
        Prod.mk.injEq, List.length_cons, true_and, and_true]
      omega
    | other s => simp [normalizeLoop, objStem, normStem, hitsMalformed]

theorem hitsMalformed_decomp : ∀ jobs, hitsMalformed jobs = true →
    ∃ s rest, jobs = (objStem jobs).map JobVal.obj ++ JobVal.other s :: rest := by
  intro jobs
  induction jobs with
  | nil => intro h; simp [hitsMalformed] at h
  | cons j js ih =>
    intro h
    cases j with
    | obj job =>
      obtain ⟨s, rest, hr⟩ := ih (by simpa [hitsMalformed] using h)
      refine ⟨s, rest, ?_⟩
      simp only [objStem, List.map_cons, List.cons_append]
      exact congrArg (JobVal.obj job :: ·) hr
    | other s => exact ⟨s, js, by simp [objStem]⟩

theorem no_malformed_decomp : ∀ jobs, hitsMalformed jobs = false →
    jobs = (objStem jobs).map JobVal.obj := by
  intro jobs
  induction jobs with
  | nil => intro _; rfl
  | cons j js ih =>
    intro h
    cases j with
    | obj job =>
      simp only [objStem, List.map_cons]
      exact congrArg (JobVal.obj job :: ·) (ih (by simpa [hitsMalformed] using h))
    | other s => simp [hitsMalformed] at h

/-- The traversal visits exactly the configured (country, role, query)
pairs, in order, whatever the API does. -/
theorem orchLoop_pairs (api : Params → Nat → Option RespJson)
    (clock : Nat → String) (effMax : Nat) : ∀ pairs k,
    (orchLoop api clock effMax pairs k).map (fun o => (o.country, o.role, o.q)) =
      pairs := by
  intro pairs
  induction pairs with
  | nil => intro k; rfl
  | cons p rest ih =>
    intro k
    obtain ⟨c, r, q⟩ := p
    simp [orchLoop, runQuery, ih]

/-- Every outcome in the traversal normalized exactly the all-object
stem of what its query fetched, and raised exactly when a non-object
element followed. -/
theorem orchLoop_outcome_spec (api : Params → Nat → Option RespJson)
    (clock : Nat → String) (effMax : Nat) : ∀ pairs k o,
    o ∈ orchLoop api clock effMax pairs k →
    ∃ k0, o.records =
        normStem o.role o.country ((lookupHint o.country).hl.getD "en") clock k0
          (objStem (collect_for_query api o.q (lookupHint o.country) effMax).1) ∧
      o.raised =
        hitsMalformed (collect_for_query api o.q (lookupHint o.country) effMax).1 := by
  intro pairs
  induction pairs with
  | nil => intro k o ho; simp [orchLoop] at ho
  | cons p rest ih =>
    intro k o ho
    obtain ⟨c, r, q⟩ := p
    simp only [orchLoop, List.mem_cons] at ho
    rcases ho with ho | ho
    · subst ho
      refine ⟨k, ?_, ?_⟩ <;> simp [runQuery, normalizeLoop_eq]
    · exact ih _ o ho

/-- C5 (amended). Every (country, role) pair is traversed whatever the
API does — a query's exception is caught at the orchestrator, so the
traversal continues unaffected — but a query whose `try` block raises
contributes the records normalized before the exception (the all-object
initial segment of its fetched jobs), which need not be zero records;
a query that does not raise contributes one record per fetched job. -/
theorem orchestrator_catches_query_exceptions
    (api : Params → Nat → Option RespJson) (clock : Nat → String)
    (effMax : Nat) :
    ((orchOutcomes api clock effMax).map (fun o => (o.country, o.role, o.q)) =
      allPairs) ∧
    (∀ o ∈ orchOutcomes api clock effMax, o.raised = true →
      ∃ s rest, (collect_for_query api o.q (lookupHint o.country) effMax).1 =
        (objStem (collect_for_query api o.q (lookupHint o.country) effMax).1).map
          JobVal.obj ++ JobVal.other s :: rest ∧
        o.records.length =
          (objStem (collect_for_query api o.q (lookupHint o.country) effMax).1).length) ∧
    (∀ o ∈ orchOutcomes api clock effMax, o.raised = false →
      o.records.length =
        (collect_for_query api o.q (lookupHint o.country) effMax).1.length) := by
  refine ⟨orchLoop_pairs api clock effMax allPairs 0, ?_, ?_⟩
  · intro o ho hr
    obtain ⟨k0, hrec, hraised⟩ := orchLoop_outcome_spec api clock effMax allPairs 0 o ho
    obtain ⟨s, rest, hdec⟩ := hitsMalformed_decomp _ (hraised.symm.trans hr)
    exact ⟨s, rest, hdec, by rw [hrec, normStem_length]⟩
  · intro o ho hr
    obtain ⟨k0, hrec, hraised⟩ := orchLoop_outcome_spec api clock effMax allPairs 0 o ho
    have hall := no_malformed_decomp _ (hraised.symm.trans hr)
    rw [hrec, normStem_length]
    conv_rhs => rw [hall]
    rw [List.length_map]

/-- A mock API whose every page holds one good job then a non-object
element (on which `job.get` raises `AttributeError` mid-normalization). -/
def apiMalformed : Params → Nat → Option RespJson :=
  fun _ _ => some ⟨some (.list [.obj jobLinked, .other "boom"])⟩

/-- A constant wall clock. -/
def clockConst : Nat → String := fun _ => "2025-01-01T00:00:00Z"

/-- C5 counterexample: against `apiMalformed`, a query whose
fetch-and-normalize step raises contributes one record — not zero — to
the accumulated batch (the claim's "contributes zero records" is false). -/
theorem raised_query_contributes_nonzero :
    ((orchOutcomes apiMalformed clockConst 2).any
      (fun o => o.raised && !(o.records.length == 0))) = true := by
  decide

/-- The outcome the first matrix entry produces against `apiMalformed`. -/
def outcomeFR : QueryOutcome :=
  { country := "France", role := "Product Owner", q := "Product Owner",
    records := [normalize_job jobLinked "Product Owner" "France" "fr"
      (clockConst 0)],
    raised := true, attempts := 1 }

/-- Witness for C5 (amended) at the concrete first matrix entry. -/
theorem orchestrator_catches_query_exceptions_witness :
    ∃ s rest,
      (collect_for_query apiMalformed outcomeFR.q
          (lookupHint outcomeFR.country) 2).1 =
        (objStem (collect_for_query apiMalformed outcomeFR.q
          (lookupHint outcomeFR.country) 2).1).map JobVal.obj ++
          JobVal.other s :: rest ∧
      outcomeFR.records.length =
        (objStem (collect_for_query apiMalformed outcomeFR.q
          (lookupHint outcomeFR.country) 2).1).length := by
  exact (orchestrator_catches_query_exceptions apiMalformed clockConst 2).2.1
    outcomeFR (by decide) (by decide)

/-- C1 counterexample: with `SERPAPI_KEY` unset the script prints the
missing-credential message, performs zero network requests — and exits
with status 0, not the non-zero code the claim requires (`run_collection`
ends that branch with a bare `return` and `main` never calls
`sys.exit`). -/
theorem missing_key_exit_code_zero :
    (script_main none apiAlwaysFail clockConst false 20 100 none
      (fun _ => none)).1 = 0 ∧
    (script_main none apiAlwaysFail clockConst false 20 100 none
      (fun _ => none)).2.log = [missingKeyMsg] ∧
    (script_main none apiAlwaysFail clockConst false 20 100 none
      (fun _ => none)).2.netAttempts = 0 :=
  ⟨rfl, rfl, rfl⟩

/-- C1 (amended). The missing API credential is reported before any
network activity (the log holds exactly the fatal-precondition message,
zero HTTP requests are made, and the filesystem is untouched), but the
process exits with status 0 in that case just as it does on normal or
partial completion — there is no non-zero exit path. -/
theorem missing_key_reported_before_network (key : Option String)
    (api : Params → Nat → Option RespJson) (clock : Nat → String)
    (dry_run : Bool) (sample_size max_per_query : Nat)
    (output : Option String) (fs : FS) :
    (script_main key api clock dry_run sample_size max_per_query output fs).1 = 0 ∧
    (pyTruthy key = false →
      (script_main key api clock dry_run sample_size max_per_query output
        fs).2.log = [missingKeyMsg] ∧
      (script_main key api clock dry_run sample_size max_per_query output
        fs).2.netAttempts = 0 ∧
      (script_main key api clock dry_run sample_size max_per_query output
        fs).2.fs = fs) := by
  refine ⟨rfl, fun h => ?_⟩
  simp [script_main, run_collection, h]

/-- Witness for C1 (amended) at a concrete unset credential. -/
theorem missing_key_reported_before_network_witness :
    (script_main none apiOnePage clockConst true 5 100 none
      (fun _ => none)).1 = 0 ∧
    ((script_main none apiOnePage clockConst true 5 100 none
        (fun _ => none)).2.log = [missingKeyMsg] ∧
      (script_main none apiOnePage clockConst true 5 100 none
        (fun _ => none)).2.netAttempts = 0 ∧
      (script_main none apiOnePage clockConst true 5 100 none
        (fun _ => none)).2.fs = (fun _ => none)) := by
  have h := missing_key_reported_before_network none apiOnePage clockConst
    true 5 100 none (fun _ => none)
  exact ⟨h.1, h.2 rfl⟩

theorem stripTime_id (r : NormRecord) : (stripTime r).id = r.id := rfl

/-- A normalized record with its timestamp erased does not depend on the
wall clock. -/
theorem stripTime_normalize (j : RawJob) (role country language t t' : String) :
    stripTime (normalize_job j role country language t) =
    stripTime (normalize_job j role country language t') := rfl

theorem normStem_strip (role country language : String)
    (clock1 clock2 : Nat → String) : ∀ l k1 k2,
    (normStem role country language clock1 k1 l).map stripTime =
    (normStem role country language clock2 k2 l).map stripTime := by
  intro l
  induction l with
  | nil => intro k1 k2; rfl
  | cons j js ih =>
    intro k1 k2
    simp only [normStem, List.map_cons]
    rw [stripTime_normalize j role country language (clock1 k1) (clock2 k2),
      ih (k1 + 1) (k2 + 1)]

/-- A query outcome with the clock-dependent timestamps erased. -/
def stripOutcome (o : QueryOutcome) : QueryOutcome :=
  { o with records := o.records.map stripTime }

theorem runQuery_strip (api : Params → Nat → Option RespJson)
    (clock1 clock2 : Nat → String) (effMax : Nat) (c r q : String)
    (k1 k2 : Nat) :
    stripOutcome (runQuery api clock1 effMax c r q k1).1 =
    stripOutcome (runQuery api clock2 effMax c r q k2).1 := by
  simp only [runQuery, stripOutcome, normalizeLoop_eq, QueryOutcome.mk.injEq,
    true_and, and_true]
  exact normStem_strip r c ((lookupHint c).hl.getD "en") clock1 clock2 _ k1 k2

/-- The traversal's outcomes do not depend on the wall clock except
through each record's retrieval timestamp. -/
theorem orchLoop_strip (api : Params → Nat → Option RespJson)
    (clock1 clock2 : Nat → String) (effMax : Nat) : ∀ pairs k1 k2,
    (orchLoop api clock1 effMax pairs k1).map stripOutcome =
    (orchLoop api clock2 effMax pairs k2).map stripOutcome := by
  intro pairs
  induction pairs with
  | nil => intro k1 k2; rfl
  | cons p rest ih =>
    intro k1 k2
    obtain ⟨c, r, q⟩ := p
    simp only [orchLoop, List.map_cons]
    rw [runQuery_strip api clock1 clock2 effMax c r q k1 k2, ih _ _]

theorem flatten_records_strip : ∀ os : List QueryOutcome,
    ((os.map (·.records)).flatten).map stripTime =
    ((os.map stripOutcome).map (·.records)).flatten := by
  intro os
  induction os with
  | nil => rfl
  | cons o os ih =>
    simp only [List.map_cons, List.flatten_cons, List.map_append, stripOutcome]
    rw [ih]

theorem dropDupsGo_strip : ∀ (seen : List String) (l1 l2 : List NormRecord),
    l1.map stripTime = l2.map stripTime →
    (dropDupsGo seen l1).map stripTime = (dropDupsGo seen l2).map stripTime := by
  intro seen l1
  induction l1 generalizing seen with
  | nil =>
    intro l2 h
    cases l2 with
    | nil => rfl
    | cons b m => simp at h
  | cons a l ih =>
    intro l2 h
    cases l2 with
    | nil => simp at h
    | cons b m =>
      simp only [List.map_cons, List.cons.injEq] at h
      obtain ⟨hab, hlm⟩ := h
      have hid : a.id = b.id := by
        rw [← stripTime_id a, ← stripTime_id b, hab]
      simp only [dropDupsGo, hid]
      by_cases hc : seen.contains b.id
      · rw [if_pos hc, if_pos hc]
        exact ih seen m hlm
      · rw [if_neg hc, if_neg hc]
        simp only [List.map_cons, hab, List.cons.injEq, true_and]
        exact ih (b.id :: seen) m hlm

theorem insertById_strip (x1 x2 : NormRecord) (hx : stripTime x1 = stripTime x2) :
    ∀ l1 l2, l1.map stripTime = l2.map stripTime →
      (insertById x1 l1).map stripTime = (insertById x2 l2).map stripTime := by
  intro l1
  induction l1 with
  | nil =>
    intro l2 h
    cases l2 with
    | nil => simp [insertById, hx]
    | cons b m => simp at h
  | cons a l ih =>
    intro l2 h
    cases l2 with
    | nil => simp at h
    | cons b m =>
      simp only [List.map_cons, List.cons.injEq] at h
      obtain ⟨hab, hlm⟩ := h
      have hxid : x1.id = x2.id := by
        rw [← stripTime_id x1, ← stripTime_id x2, hx]
      have haid : a.id = b.id := by
        rw [← stripTime_id a, ← stripTime_id b, hab]
      simp only [insertById, hxid, haid]
      by_cases hle : strLe x2.id b.id
      · rw [if_pos hle, if_pos hle]
        simp [hx, hab, hlm]
      · rw [if_neg hle, if_neg hle]
        simp only [List.map_cons, hab, List.cons.injEq, true_and]
        exact ih m hlm

theorem sortById_strip : ∀ l1 l2 : List NormRecord,
    l1.map stripTime = l2.map stripTime →
    (sortById l1).map stripTime = (sortById l2).map stripTime := by
  intro l1
  induction l1 with
  | nil =>
    intro l2 h
    cases l2 with
    | nil => rfl
    | cons b m => simp at h
  | cons a l ih =>
    intro l2 h
    cases l2 with
    | nil => simp at h
    | cons b m =>
      simp only [List.map_cons, List.cons.injEq] at h
      obtain ⟨hab, hlm⟩ := h
      show (insertById a (sortById l)).map stripTime =
        (insertById b (sortById m)).map stripTime
      exact insertById_strip a b hab (sortById l) (sortById m) (ih m hlm)

/-- Merging batches that agree up to timestamps into the same file state
yields file states that agree up to timestamps. -/
theorem merge_and_save_strip (b1 b2 : List NormRecord) (path : String)
    (fs : FS) (h : b1.map stripTime = b2.map stripTime) (p : String) :
    ((merge_and_save b1 path fs) p).map (List.map stripTime) =
    ((merge_and_save b2 path fs) p).map (List.map stripTime) := by
  by_cases hp : p = path
  · subst hp
    rw [merge_and_save_at_path, merge_and_save_at_path]
    cases hf : fs p with
    | some old =>
      simp only [Option.map_some]
      exact congrArg some (dropDupsGo_strip [] (old ++ b1) (old ++ b2)
        (by rw [List.map_append, List.map_append, h]))
    | none =>
      simp only [Option.map_some]
      exact congrArg some (dropDupsGo_strip [] b1 b2 h)
  · show ((if p = path then _ else fs p)).map (List.map stripTime) =
      ((if p = path then _ else fs p)).map (List.map stripTime)
    rw [if_neg hp, if_neg hp]

/-- C2 (amended). For a fixed API-response oracle and a fixed initial
file state, two dry-run executions that differ only in the wall clock
produce sample files that are identical record for record except for
the retrieval-timestamp column — in particular the same identifiers in
the same sorted order and the same truncation — but not byte-identical
files, since the retrieval timestamp is taken from the wall clock at
each normalization (see the counterexample). -/
theorem dry_run_sample_time_invariant (key : Option String)
    (api : Params → Nat → Option RespJson) (clock1 clock2 : Nat → String)
    (max_per_query sample_size : Nat) (output : Option String) (fs : FS)
    (p : String) :
    ((run_collection key api clock1 max_per_query true sample_size output
        fs).fs p).map (List.map stripTime) =
    ((run_collection key api clock2 max_per_query true sample_size output
        fs).fs p).map (List.map stripTime) := by
  by_cases hkey : pyTruthy key
  · have hbatch :
        (((orchLoop api clock1 (max 1 sample_size) allPairs 0).map
          (·.records)).flatten).map stripTime =
        (((orchLoop api clock2 (max 1 sample_size) allPairs 0).map
          (·.records)).flatten).map stripTime := by
      rw [flatten_records_strip, flatten_records_strip,
        orchLoop_strip api clock1 clock2 (max 1 sample_size) allPairs 0 0]
    have hlen :
        (((orchLoop api clock1 (max 1 sample_size) allPairs 0).map
          (·.records)).flatten).length =
        (((orchLoop api clock2 (max 1 sample_size) allPairs 0).map
          (·.records)).flatten).length := by
      have h := congrArg List.length hbatch
      rwa [List.length_map, List.length_map] at h
    have hempty :
        (((orchLoop api clock1 (max 1 sample_size) allPairs 0).map
          (·.records)).flatten).isEmpty =
        (((orchLoop api clock2 (max 1 sample_size) allPairs 0).map
          (·.records)).flatten).isEmpty := by
      rw [Bool.eq_iff_iff, List.isEmpty_iff, List.isEmpty_iff,
        ← List.length_eq_zero, ← List.length_eq_zero, hlen]
    simp only [run_collection, hkey, Bool.not_true, Bool.false_eq_true,
      if_false, if_true]
    by_cases he :
        (((orchLoop api clock1 (max 1 sample_size) allPairs 0).map
          (·.records)).flatten).isEmpty
    · rw [if_pos he, if_pos (hempty ▸ he)]
    · rw [if_neg he, if_neg (fun hco => he (hempty ▸ hco))]
      simp only
      have hsorted := sortById_strip _ _ hbatch
      have htaken :
          ((sortById (((orchLoop api clock1 (max 1 sample_size) allPairs
            0).map (·.records)).flatten)).take sample_size).map stripTime =
          ((sortById (((orchLoop api clock2 (max 1 sample_size) allPairs
            0).map (·.records)).flatten)).take sample_size).map stripTime := by
        rw [List.map_take, List.map_take, hsorted]
      exact merge_and_save_strip _ _ (pyStrOr output DEFAULT_SAMPLE_CSV) fs
        htaken p
  · simp only [run_collection, hkey, Bool.not_false, if_true]

/-- A mock API that returns a single good job on every page request. -/
def apiSingle : Params → Nat → Option RespJson :=
  fun _ _ => some ⟨some (.list [.obj jobLinked])⟩

/-- A second wall clock, one year later. -/
def clockLater : Nat → String := fun _ => "2026-01-01T00:00:00Z"

/-- C2 counterexample: two dry-run executions with the same mock API
responses and the same (empty) initial file state produce sample files
that are not byte-identical — the `retrieved_at` column carries the wall
clock of each run. -/
theorem dry_run_not_byte_identical :
    (run_collection (some "k") apiSingle clockConst 100 true 1 none
      (fun _ => none)).fs DEFAULT_SAMPLE_CSV ≠
    (run_collection (some "k") apiSingle clockLater 100 true 1 none
      (fun _ => none)).fs DEFAULT_SAMPLE_CSV := by
  decide

/-- C8. In dry-run mode without an `--output` override the main corpus
file is never created, read, or modified: (i) every path other than the
sample path is left exactly as it was; (ii) the dry-run result at the
sample path depends on the initial file state only through the sample
path's own content (nothing else is read); (iii) what is written to the
sample path is the batch sorted by identifier and truncated to the
sample size, handed to the merge-on-write store for the sample path. -/
theorem dry_run_never_touches_corpus :
    (∀ (key : Option String) (api : Params → Nat → Option RespJson)
      (clock : Nat → String) (mpq ss : Nat) (fs : FS) (p : String),
      p ≠ DEFAULT_SAMPLE_CSV →
      (run_collection key api clock mpq true ss none fs).fs p = fs p) ∧
    (∀ (key : Option String) (api : Params → Nat → Option RespJson)
      (clock : Nat → String) (mpq ss : Nat) (fs1 fs2 : FS),
      fs1 DEFAULT_SAMPLE_CSV = fs2 DEFAULT_SAMPLE_CSV →
      (run_collection key api clock mpq true ss none fs1).fs DEFAULT_SAMPLE_CSV =
      (run_collection key api clock mpq true ss none fs2).fs DEFAULT_SAMPLE_CSV) ∧
    (∀ (key : Option String) (api : Params → Nat → Option RespJson)
      (clock : Nat → String) (mpq ss : Nat) (fs : FS),
      pyTruthy key = true →
      (((orchLoop api clock (max 1 ss) allPairs 0).map
        (·.records)).flatten).isEmpty = false →
      (run_collection key api clock mpq true ss none fs).fs DEFAULT_SAMPLE_CSV =
        merge_and_save
          ((sortById (((orchLoop api clock (max 1 ss) allPairs 0).map
            (·.records)).flatten)).take ss)
          DEFAULT_SAMPLE_CSV fs DEFAULT_SAMPLE_CSV) := by
  refine ⟨?_, ?_, ?_⟩
  · intro key api clock mpq ss fs p hp
    by_cases hkey : pyTruthy key
    · simp only [run_collection, hkey, Bool.not_true, Bool.false_eq_true,
        if_false, if_true]
      by_cases he : (((orchLoop api clock (max 1 ss) allPairs 0).map
          (·.records)).flatten).isEmpty
      · rw [if_pos he]
      · rw [if_neg he]
        show (if p = pyStrOr none DEFAULT_SAMPLE_CSV then _ else fs p) = fs p
        exact if_neg hp
    · simp only [run_collection, hkey, Bool.not_false, if_true]
  · intro key api clock mpq ss fs1 fs2 h
    by_cases hkey : pyTruthy key
    · simp only [run_collection, hkey, Bool.not_true, Bool.false_eq_true,
        if_false, if_true]
      by_cases he : (((orchLoop api clock (max 1 ss) allPairs 0).map
          (·.records)).flatten).isEmpty
      · rw [if_pos he, if_pos he]
        exact h
      · rw [if_neg he, if_neg he]
        dsimp only
        have hps : pyStrOr none DEFAULT_SAMPLE_CSV = DEFAULT_SAMPLE_CSV := rfl
        rw [hps, merge_and_save_at_path, merge_and_save_at_path, h]
    · simp only [run_collection, hkey, Bool.not_false, if_true]
      exact h
  · intro key api clock mpq ss fs hkey he
    simp only [run_collection, hkey, Bool.not_true, Bool.false_eq_true,
      if_false, if_true, he]
    rfl

/-- A concrete file state holding only a main corpus file. -/
def fsCorpusOnly : FS :=
  fun p => if p = DEFAULT_OUTPUT_CSV then some [recA] else none

/-- Witness for C8: with a populated main corpus on disk, a dry run
leaves the corpus file untouched, its sample output ignores the corpus
file, and the sample path receives the sorted, truncated batch. -/
theorem dry_run_never_touches_corpus_witness :
    ((run_collection (some "k") apiSingle clockConst 100 true 1 none
        fsCorpusOnly).fs DEFAULT_OUTPUT_CSV = fsCorpusOnly DEFAULT_OUTPUT_CSV) ∧
    ((run_collection (some "k") apiSingle clockConst 100 true 1 none
        fsCorpusOnly).fs DEFAULT_SAMPLE_CSV =
      (run_collection (some "k") apiSingle clockConst 100 true 1 none
        (fun _ => none)).fs DEFAULT_SAMPLE_CSV) ∧
    ((run_collection (some "k") apiSingle clockConst 100 true 1 none
        fsCorpusOnly).fs DEFAULT_SAMPLE_CSV =
      merge_and_save
        ((sortById (((orchLoop apiSingle clockConst (max 1 1) allPairs 0).map
          (·.records)).flatten)).take 1)
        DEFAULT_SAMPLE_CSV fsCorpusOnly DEFAULT_SAMPLE_CSV) := by
  refine ⟨?_, ?_, ?_⟩
  · exact dry_run_never_touches_corpus.1 (some "k") apiSingle clockConst
      100 1 fsCorpusOnly DEFAULT_OUTPUT_CSV (by decide)
  · exact dry_run_never_touches_corpus.2.1 (some "k") apiSingle clockConst
      100 1 fsCorpusOnly (fun _ => none) (by decide)
  · exact dry_run_never_touches_corpus.2.2 (some "k") apiSingle clockConst
      100 1 fsCorpusOnly rfl (by decide)





